import Mathlib

/-!
Verification of the core of the `ethereum` crate: the 256-bit-bounded
`Amount`/`Wei`/`Ether` quantity types (`src/asset.rs`, `src/asset/wei.rs`,
`src/asset/ether.rs`) and the JSON-RPC envelope
(`src/jsonrpc_ureq.rs` / `src/jsonrpc_reqwest.rs`).

Machine integers are modelled as `Nat` (the Rust code stores a `BigUint`,
an unbounded non-negative integer, so no modular reduction is involved);
fallible operations return `Except`/`Option`; a Rust `panic!`/`todo!` is
modelled by the dedicated `PanicOr.panicked` outcome.
-/

/-! ## Digit-string groundwork

`BigUint` string conversions used by the crate come from the `num` family:
`BigUint::from_str_radix(s, radix)` and `to_str_radix(10)`.  We embed their
semantics: parsing strips a single leading `+` sign, rejects the empty
string and a leading underscore, skips interior underscores, and folds the
digits (`0-9`, `a-z`, `A-Z` case-insensitively, each required to be below
the radix); printing emits the usual most-significant-first decimal digits
with no sign and no leading zeros (`"0"` for zero).
-/

/-- Digit value of a character as in `num`'s `from_str_radix` byte match:
`0-9` map to `0..9`, `a-z` to `10..35`, `A-Z` to `10..35`, anything else is
not a digit.  The radix bound is checked by the caller. -/
def charToDigit (c : Char) : Option Nat :=
  if '0' ≤ c ∧ c ≤ '9' then some (c.toNat - 48)
  else if 'a' ≤ c ∧ c ≤ 'z' then some (c.toNat - 97 + 10)
  else if 'A' ≤ c ∧ c ≤ 'Z' then some (c.toNat - 65 + 10)
  else none

/-- Fold digits most-significant first, as `from_str_radix` does after sign
stripping; interior `_` characters are skipped, a non-digit or a digit `≥`
the radix aborts the parse. -/
def parseDigitsAux (radix : Nat) : List Char → Nat → Option Nat
  | [], acc => some acc
  | c :: cs, acc =>
    if c = '_' then parseDigitsAux radix cs acc
    else
      match charToDigit c with
      | some d => if d < radix then parseDigitsAux radix cs (acc * radix + d) else none
      | none => none

/-- Strip one leading `+` sign, as `from_str_radix` does. -/
def dropPlusSign (cs : List Char) : List Char :=
  match cs with
  | c :: rest => if c = '+' then rest else c :: rest
  | [] => []

/-- Model of `num::Num::from_str_radix` for `BigUint` (also `FromStr`, which
is `from_str_radix` at radix 10): strip an optional `+`, reject the empty
string and a leading `_`, then fold the digits; `none` models
`ParseBigIntError`. -/
def fromStrRadixList (radix : Nat) (cs : List Char) : Option Nat :=
  match dropPlusSign cs with
  | [] => none
  | c :: rest => if c = '_' then none else parseDigitsAux radix (c :: rest) 0

/-- `BigUint::from_str_radix` on a Rust `&str`, seen as its character list. -/
def fromStrRadix (radix : Nat) (s : String) : Option Nat :=
  fromStrRadixList radix s.data

/-- Most-significant-first decimal digit characters of `n`; the fuel
argument (any value above `n` suffices) makes the recursion structural. -/
def toDecAux : Nat → Nat → List Char
  | 0, _ => []
  | fuel + 1, n =>
    if n < 10 then [Nat.digitChar n]
    else toDecAux fuel (n / 10) ++ [Nat.digitChar (n % 10)]

/-- Model of `BigUint::to_str_radix(10)`: decimal digits, no sign, no
leading zeros, `"0"` for zero. -/
def natToDecString (n : Nat) : String :=
  String.mk (toDecAux (n + 1) n)

/-! ## The `Amount` type (`src/asset.rs`)

`Amount` wraps a `BigUint`; equality and order are those of the wrapped
value. -/

/-- `asset::Error`: `Overflow`, or `Parse` wrapping a `ParseBigIntError`
(the wrapped parse-error detail carries no further information we need, so
it is not modelled). -/
inductive AssetError where
  | Overflow
  | Parse
deriving DecidableEq, Repr

/-- `pub struct Amount(BigUint)` from `src/asset.rs`. -/
structure Amount where
  val : Nat
deriving DecidableEq, Repr

/-- The `10^18` wei-per-ether scaling constant (`WEI_IN_ETHER_BIGUINT`). -/
def WEI_IN_ETHER : Nat := 10 ^ 18

namespace Amount

/-- `Amount::zero`. -/
def zero : Amount := ⟨0⟩

/-- `Amount::max_value`: `2^256 - 1`. -/
def max_value : Amount := ⟨2 ^ 256 - 1⟩

/-- `impl TryFromWei<BigUint> for Amount`: reject values above
`max_value` with `Overflow`. -/
def try_from_wei (wei : Nat) : Except AssetError Amount :=
  if wei > max_value.val then .error .Overflow else .ok ⟨wei⟩

/-- `Amount::to_wei_dec`: `self.0.to_str_radix(10)`. -/
def to_wei_dec (a : Amount) : String := natToDecString a.val

/-- `Amount::from_wei_dec_str`: parse base 10 (`Parse` on failure), then
range-check through `try_from_wei`. -/
def from_wei_dec_str (s : String) : Except AssetError Amount :=
  match fromStrRadix 10 s with
  | none => .error .Parse
  | some n => try_from_wei n

/-- `hex.strip_prefix("0x").unwrap_or(hex)` on the character list. -/
def stripHexMarker (cs : List Char) : List Char :=
  match cs with
  | c0 :: c1 :: rest => if c0 = '0' ∧ c1 = 'x' then rest else c0 :: c1 :: rest
  | other => other

/-- `Amount::try_from_hex_str`: strip an optional `0x`, parse base 16,
then range-check through `try_from_wei`. -/
def try_from_hex_str (hex : String) : Except AssetError Amount :=
  match fromStrRadix 16 (String.mk (stripHexMarker hex.data)) with
  | none => .error .Parse
  | some n => try_from_wei n

/-- `Amount::checked_mul`: multiply the wrapped integer by the `u64`
factor (exactly — `BigUint` cannot overflow), then compare against
`max_value`. -/
def checked_mul (a : Amount) (factor : Nat) : Option Amount :=
  let result : Amount := ⟨a.val * factor⟩
  if result.val > max_value.val then none else some result

/-- `impl FromWei<u8/u16/u32/u64/u128> for Amount` (macro-generated): wrap
the primitive unchanged.  Every instantiation feeds a value below `2^128`. -/
def from_wei (n : Nat) : Amount := ⟨n⟩

/-- `impl TryFromWei<&str> for Amount`: `BigUint::from_str` then wrap —
note: no range check against `max_value` in the source. -/
def try_from_wei_str (s : String) : Except AssetError Amount :=
  match fromStrRadix 10 s with
  | none => .error .Parse
  | some n => .ok ⟨n⟩

/-- The `Deserialize` string visitor for `Amount`: `BigUint::from_str`,
then `try_from_wei`; either failure aborts the decode (`none`). -/
def deserialize (s : String) : Option Amount :=
  match fromStrRadix 10 s with
  | none => none
  | some n =>
    match try_from_wei n with
    | .ok a => some a
    | .error _ => none

/-- `impl Serialize for Amount`: the decimal string of the wrapped value. -/
def serialize (a : Amount) : String := natToDecString a.val

/-- Left-pad with `'0'` to 18 characters (`format!("{:0>18}", rem)`). -/
def padZeros18 (cs : List Char) : List Char :=
  List.replicate (18 - cs.length) '0' ++ cs

/-- Remove all trailing `'0'` characters (`trim_end_matches('0')`). -/
def trimZerosEnd (cs : List Char) : List Char :=
  (cs.reverse.dropWhile (fun c => c = '0')).reverse

/-- `impl fmt::Display for Amount`: `div_rem` by `10^18`; print the whole
part alone when the remainder is zero, otherwise the remainder padded to 18
digits with trailing zeros trimmed, then the `" ETH"` suffix. -/
def display (a : Amount) : String :=
  let ether := a.val / WEI_IN_ETHER
  let rem := a.val % WEI_IN_ETHER
  if rem = 0 then
    natToDecString ether ++ " ETH"
  else
    natToDecString ether ++ "." ++
      String.mk (trimZerosEnd (padZeros18 (natToDecString rem).data)) ++ " ETH"

end Amount

/-! ## `Wei`, `Gwei`, `Ether` (`src/asset/wei.rs`, `src/asset/ether.rs`) -/

/-- Outcome of calling a Rust function that may `panic!`/`todo!`: either a
returned value or a panic (which never yields a value to the caller). -/
inductive PanicOr (α : Type) where
  | panicked
  | value (a : α)
deriving DecidableEq, Repr

/-- `pub struct Wei(BigUint)` from `src/asset/wei.rs`. -/
structure Wei where
  val : Nat
deriving DecidableEq, Repr

namespace Wei

/-- `Wei::zero`. -/
def zero : Wei := ⟨0⟩

/-- `Wei::max_value`: `2^256 - 1`. -/
def max_value : Wei := ⟨2 ^ 256 - 1⟩

/-- `impl TryFrom<BigUint> for Wei`: reject values above `max_value`. -/
def tryFromBigUint (wei : Nat) : Except AssetError Wei :=
  if wei > max_value.val then .error .Overflow else .ok ⟨wei⟩

/-- `Wei::to_dec_string`: `self.0.to_str_radix(10)`. -/
def to_dec_string (w : Wei) : String := natToDecString w.val

/-- `Wei::try_from_dec_str`: parse base 10, then range-check. -/
def try_from_dec_str (s : String) : Except AssetError Wei :=
  match fromStrRadix 10 s with
  | none => .error .Parse
  | some n => tryFromBigUint n

/-- `Wei::to_hex_string` is `todo!()`: it panics unconditionally. -/
def to_hex_string (_ : Wei) : PanicOr String := .panicked

/-- `Wei::try_from_hex_str`: strip an optional `0x`, parse base 16, then
range-check. -/
def try_from_hex_str (hex : String) : Except AssetError Wei :=
  match fromStrRadix 16 (String.mk (Amount.stripHexMarker hex.data)) with
  | none => .error .Parse
  | some n => tryFromBigUint n

/-- `Wei::checked_mul`: multiply exactly, then compare against `max_value`. -/
def checked_mul (w : Wei) (factor : Nat) : Option Wei :=
  let result : Wei := ⟨w.val * factor⟩
  if result.val > max_value.val then none else some result

/-- `impl Add for Wei`: addition of the wrapped unbounded integers, with no
range check. -/
def add (a b : Wei) : Wei := ⟨a.val + b.val⟩

/-- `impl Sub for Wei`: `BigUint` subtraction, which panics when the
subtrahend exceeds the minuend; the panic is modelled by `PanicOr.panicked`. -/
def sub (a b : Wei) : PanicOr Wei :=
  if b.val ≤ a.val then .value ⟨a.val - b.val⟩ else .panicked

end Wei

/-- `pub struct Ether(Wei)` from `src/asset/ether.rs`. -/
structure Ether where
  wei : Wei
deriving DecidableEq, Repr

namespace Ether

/-- `Ether::zero`. -/
def zero : Ether := ⟨Wei.zero⟩

/-- `Ether::to_dec_string`: `div_rem` by `10^18`; whole part alone when the
remainder is zero, otherwise the remainder padded to 18 digits with
trailing zeros trimmed (no currency suffix at this level). -/
def to_dec_string (e : Ether) : String :=
  let ether := e.wei.val / WEI_IN_ETHER
  let rem := e.wei.val % WEI_IN_ETHER
  if rem = 0 then
    natToDecString ether
  else
    natToDecString ether ++ "." ++
      String.mk (Amount.trimZerosEnd (Amount.padZeros18 (natToDecString rem).data))

/-- `impl Display for Ether`: `to_dec_string` followed by `" ETH"`. -/
def display (e : Ether) : String := to_dec_string e ++ " ETH"

/-- `Ether::try_from_dec_str` is `todo!()`: it panics unconditionally,
returning neither an `Ether` nor a typed error. -/
def try_from_dec_str (_ : String) : PanicOr (Except AssetError Ether) := .panicked

/-- `impl Add for Ether`: delegate to the unchecked `Wei` addition. -/
def add (a b : Ether) : Ether := ⟨Wei.add a.wei b.wei⟩

/-- `impl Sub for Ether`: delegate to the panicking `Wei` subtraction. -/
def sub (a b : Ether) : PanicOr Ether :=
  match Wei.sub a.wei b.wei with
  | .value w => .value ⟨w⟩
  | .panicked => .panicked

end Ether

/-! ## JSON values and the RPC envelope
(`src/jsonrpc_ureq.rs` and `src/jsonrpc_reqwest.rs` declare identical
`Request`/`Response`/`ResponsePayload`/`JsonRpcError` types.) -/

/-- A JSON document; an object keeps its fields in order, which is the
order `serde_json` writes them in. -/
inductive Json where
  | jnull
  | jbool (b : Bool)
  | jnum (n : Int)
  | jstr (s : String)
  | jarr (xs : List Json)
  | jobj (entries : List (String × Json))

/-- The `serde` string deserializer on a JSON value: succeeds exactly on a
JSON string. -/
def Json.asString : Json → Option String
  | .jstr s => some s
  | _ => none

/-- `pub const JSONRPC_VERSION_2: &str = "2.0"`. -/
def JSONRPC_VERSION_2 : String := "2.0"

/-- `pub struct Request<T>` with fields in declaration order `id`,
`jsonrpc`, `method`, `params`; the params are kept as their serialized
JSON form. -/
structure Request where
  id : String
  jsonrpc : String
  method : String
  params : Json

namespace Request

/-- `Request::new`: constant id `"1"`, caller-chosen version string. -/
def new (method : String) (params : Json) (jsonrpc : String) : Request :=
  ⟨"1", jsonrpc, method, params⟩

/-- `Request::v2`: `Request::new` with version `"2.0"`. -/
def v2 (method : String) (params : Json) : Request :=
  new method params JSONRPC_VERSION_2

/-- `#[derive(Serialize)]` on `Request<T>`: a JSON object with the fields
in declaration order. -/
def toJson (r : Request) : Json :=
  .jobj [("id", .jstr r.id), ("jsonrpc", .jstr r.jsonrpc),
        ("method", .jstr r.method), ("params", r.params)]

end Request

/-- `pub struct JsonRpcError { code: i64, message: String }`. -/
structure JsonRpcError where
  code : Int
  message : String
deriving DecidableEq, Repr

/-- `enum ResponsePayload<R>` with lowercase external tags `result` and
`error`. -/
inductive ResponsePayload (R : Type) where
  | result (r : R)
  | error (e : JsonRpcError)
deriving DecidableEq, Repr

/-- First value bound to `key` in a JSON object's field list, as a `serde`
map deserializer sees it. -/
def lookupField : List (String × Json) → String → Option Json
  | [], _ => none
  | (k, v) :: rest, key => if k = key then some v else lookupField rest key

/-- `#[derive(Deserialize)]` on `JsonRpcError`: an object with an integer
`code` field and a string `message` field, in any order; unknown fields
are ignored (the `serde` default). -/
def decodeJsonRpcError (j : Json) : Option JsonRpcError :=
  match j with
  | .jobj fields =>
    match lookupField fields "code", lookupField fields "message" with
    | some (.jnum c), some (.jstr m) => some ⟨c, m⟩
    | _, _ => none
  | _ => none

/-- Decoding `Response<R>` (a struct whose only member is the
`#[serde(flatten)]`ed externally-tagged `ResponsePayload<R>`): the body
must be an object with exactly one field, whose key selects the variant —
`result` decodes the value with `R`'s deserializer, `error` decodes a
`JsonRpcError`; any other body shape fails to decode. -/
def decodeResponse (R : Type) (decR : Json → Option R) (body : Json) :
    Option (ResponsePayload R) :=
  match body with
  | .jobj [(tag, v)] =>
    if tag = "result" then (decR v).map .result
    else if tag = "error" then (decodeJsonRpcError v).map .error
    else none
  | _ => none

/-- `ResponsePayload::into_result`: unwrap a `result` tag to the typed
value, an `error` tag to the `JsonRpcError` as a protocol failure. -/
def ResponsePayload.into_result {R : Type} : ResponsePayload R → Except JsonRpcError R
  | .result r => .ok r
  | .error e => .error e

/-- Display algorithm exactly as the specification words it, for comparison
with `Amount.display`: `(whole, remainder) = divmod(value, 10^18)`; if the
remainder is zero output the whole part and the suffix, otherwise left-pad
the remainder's base-10 string with zeros to exactly 18 digits, strip
trailing zeros, and output `whole.trimmed` with the suffix. -/
def scaledDisplaySpec (a : Amount) : String :=
  let whole := a.val / 10 ^ 18
  let remainder := a.val % 10 ^ 18
  if remainder = 0 then
    natToDecString whole ++ " ETH"
  else
    let digits := (natToDecString remainder).data
    let padded := List.replicate (18 - digits.length) '0' ++ digits
    let trimmed := (padded.reverse.dropWhile (fun c => c = '0')).reverse
    natToDecString whole ++ "." ++ String.mk trimmed ++ " ETH"

/-! ## Compact JSON rendering (`serde_json::to_string`) -/

/-- Decimal string of an `i64` value. -/
def intToDecString (n : Int) : String :=
  if n < 0 then String.mk ('-' :: (natToDecString n.natAbs).data)
  else natToDecString n.natAbs

/-- Escaping of one character inside a JSON string, as `serde_json` writes
it: `"` and `\` get a backslash, the usual control-character short escapes
are used, any other control character becomes a `\u00xx` escape, and
everything else is written verbatim. -/
def escapeChar (c : Char) : List Char :=
  if c = '\"' then ['\\', '\"']
  else if c = '\\' then ['\\', '\\']
  else if c = Char.ofNat 8 then ['\\', 'b']
  else if c = Char.ofNat 9 then ['\\', 't']
  else if c = Char.ofNat 10 then ['\\', 'n']
  else if c = Char.ofNat 12 then ['\\', 'f']
  else if c = Char.ofNat 13 then ['\\', 'r']
  else if c.toNat < 32 then
    ['\\', 'u', '0', '0', Nat.digitChar (c.toNat / 16), Nat.digitChar (c.toNat % 16)]
  else [c]

/-- A string rendered as a quoted, escaped JSON string. -/
def renderStringChars (s : String) : List Char :=
  '\"' :: List.foldr (fun c acc => escapeChar c ++ acc) ['\"'] s.data

mutual

/-- Compact rendering of a JSON value, as `serde_json::to_string` writes
it: no whitespace, object fields in list order. -/
def renderJson : Json → List Char
  | .jnull => ['n', 'u', 'l', 'l']
  | .jbool true => ['t', 'r', 'u', 'e']
  | .jbool false => ['f', 'a', 'l', 's', 'e']
  | .jnum n => (intToDecString n).data
  | .jstr s => renderStringChars s
  | .jarr xs => '[' :: (renderArr xs ++ [']'])
  | .jobj fs => Char.ofNat 123 :: (renderObj fs ++ [Char.ofNat 125])

/-- Comma-separated rendering of array elements. -/
def renderArr : List Json → List Char
  | [] => []
  | [x] => renderJson x
  | x :: y :: rest => renderJson x ++ ',' :: renderArr (y :: rest)

/-- Comma-separated rendering of `key:value` object fields. -/
def renderObj : List (String × Json) → List Char
  | [] => []
  | [(k, v)] => renderStringChars k ++ ':' :: renderJson v
  | (k, v) :: f :: rest =>
    renderStringChars k ++ ':' :: renderJson v ++ ',' :: renderObj (f :: rest)

end

/-- `serde_json::to_string` on a JSON value. -/
def Json.render (j : Json) : String := String.mk (renderJson j)

/-! ## Helper lemmas: decimal printing parses back to the same number -/

theorem charToDigit_digitChar (d : Nat) (h : d < 10) :
    charToDigit (Nat.digitChar d) = some d := by
  interval_cases d <;> rfl

theorem digitChar_not_special (d : Nat) (h : d < 10) :
    Nat.digitChar d ≠ '+' ∧ Nat.digitChar d ≠ '_' := by
  interval_cases d <;> exact ⟨by decide, by decide⟩

theorem parseDigitsAux_append (radix : Nat) (xs ys : List Char) (acc : Nat) :
    parseDigitsAux radix (xs ++ ys) acc =
      (parseDigitsAux radix xs acc).bind (fun m => parseDigitsAux radix ys m) := by
  induction xs generalizing acc with
  | nil => simp [parseDigitsAux]
  | cons c cs ih =>
    by_cases hc : c = '_'
    · simp [parseDigitsAux, hc, ih]
    · cases hd : charToDigit c with
      | none => simp [parseDigitsAux, hc, hd]
      | some d =>
        by_cases hlt : d < radix
        · simp [parseDigitsAux, hc, hd, hlt, ih]
        · simp [parseDigitsAux, hc, hd, hlt]

theorem parseDigitsAux_toDecAux (fuel : Nat) :
    ∀ n acc, n < fuel →
      parseDigitsAux 10 (toDecAux fuel n) acc =
        some (acc * 10 ^ (toDecAux fuel n).length + n) := by
  induction fuel with
  | zero => omega
  | succ fuel ih =>
    intro n acc h
    by_cases hn : n < 10
    · have h10 := charToDigit_digitChar n hn
      have hne := digitChar_not_special n hn
      simp [toDecAux, hn, parseDigitsAux, hne.2, h10]
    · have hdiv : n / 10 < fuel := by
        have := Nat.div_lt_self (show 0 < n by omega) (show 1 < 10 by omega)
        omega
      have hmod : n % 10 < 10 := Nat.mod_lt _ (by omega)
      have h10 := charToDigit_digitChar _ hmod
      have hne := digitChar_not_special _ hmod
      have hsing : ∀ m, parseDigitsAux 10 [Nat.digitChar (n % 10)] m =
          some (m * 10 + n % 10) := by
        intro m
        simp [parseDigitsAux, hne.2, h10, hmod]
      rw [toDecAux, if_neg hn, parseDigitsAux_append, ih _ acc hdiv, Option.some_bind,
        hsing]
      have hlen : (toDecAux fuel (n / 10) ++ [Nat.digitChar (n % 10)]).length =
          (toDecAux fuel (n / 10)).length + 1 := by simp
      rw [hlen, pow_succ]
      generalize 10 ^ (toDecAux fuel (n / 10)).length = k
      have h1 : (acc * k + n / 10) * 10 = acc * k * 10 + n / 10 * 10 := by ring
      have h2 : acc * (k * 10) = acc * k * 10 := by ring
      congr 1
      omega

theorem toDecAux_head (fuel : Nat) :
    ∀ n, n < fuel →
      ∃ d rest, toDecAux fuel n = Nat.digitChar d :: rest ∧ d < 10 := by
  induction fuel with
  | zero => omega
  | succ fuel ih =>
    intro n h
    by_cases hn : n < 10
    · exact ⟨n, [], by simp [toDecAux, hn], hn⟩
    · have hdiv : n / 10 < fuel := by
        have := Nat.div_lt_self (show 0 < n by omega) (show 1 < 10 by omega)
        omega
      obtain ⟨d, rest, heq, hd⟩ := ih _ hdiv
      exact ⟨d, rest ++ [Nat.digitChar (n % 10)], by simp [toDecAux, hn, heq], hd⟩

/-- Printing a number with `to_str_radix(10)` and parsing the result with
`from_str_radix(_, 10)` gives the number back. -/
theorem fromStrRadix_natToDecString (n : Nat) :
    fromStrRadix 10 (natToDecString n) = some n := by
  obtain ⟨d, rest, heq, hd⟩ := toDecAux_head (n + 1) n (Nat.lt_succ_self n)
  have hne := digitChar_not_special d hd
  have hparse := parseDigitsAux_toDecAux (n + 1) n 0 (Nat.lt_succ_self n)
  show fromStrRadixList 10 (toDecAux (n + 1) n) = some n
  rw [heq] at hparse ⊢
  unfold fromStrRadixList dropPlusSign
  simp only [if_neg hne.1, if_neg hne.2]
  rw [hparse]
  simp

/-! ## Claim theorems -/

/-- Claim C3: the checked conversion from an unbounded non-negative integer
fails with `Overflow` exactly when the input exceeds `2^256 - 1`; in
particular it fails for `2^256` and every larger value and succeeds for
`2^256 - 1`. -/
theorem try_from_wei_overflow_boundary :
    (∀ n : Nat, Amount.try_from_wei n = .error .Overflow ↔ 2 ^ 256 - 1 < n)
  ∧ (∀ k : Nat, Amount.try_from_wei (2 ^ 256 + k) = .error .Overflow)
  ∧ Amount.try_from_wei (2 ^ 256 - 1) = .ok ⟨2 ^ 256 - 1⟩ := by
  have hpos : 0 < (2 : Nat) ^ 256 := Nat.pos_pow_of_pos _ (by norm_num)
  refine ⟨fun n => ?_, fun k => ?_, by rfl⟩
  · by_cases h : 2 ^ 256 - 1 < n
    · simp [Amount.try_from_wei, Amount.max_value, h]
    · simp [Amount.try_from_wei, Amount.max_value, h]
  · simp only [Amount.try_from_wei, Amount.max_value]
    rw [if_pos (by omega)]

/-- Claim C10: `Wei::to_hex_string` and `Ether::try_from_dec_str` are
`todo!()` stubs: for every input they panic and never return a value or a
typed error. -/
theorem todo_stubs_never_return :
    (∀ w : Wei, Wei.to_hex_string w = .panicked)
  ∧ (∀ s : String, Ether.try_from_dec_str s = .panicked) :=
  ⟨fun _ => rfl, fun _ => rfl⟩

/-- Claim C7: `checked_mul` multiplies the wrapped integer exactly by the
scalar, re-validates against `max_value`, returns `none` when the product
exceeds `2^256 - 1` and the exact product otherwise; `max_value * 2`
returns no value and `100 * 3` returns `300`. -/
theorem checked_mul_exact :
    (∀ (a : Amount) (s : Nat), Amount.checked_mul a s =
        if Amount.max_value.val < a.val * s then none else some ⟨a.val * s⟩)
  ∧ Amount.checked_mul Amount.max_value 2 = none
  ∧ Amount.checked_mul ⟨100⟩ 3 = some ⟨300⟩ :=
  ⟨fun a s => rfl, by rfl, by rfl⟩

/-- Claim C9: `add` and `sub` on `Wei`/`Ether` work on the unbounded
wrapped integer: adding `max_value` to itself yields a value strictly above
`max_value` with no error, and subtracting a strictly larger value always
panics instead of returning a value. -/
theorem add_sub_unchecked :
    Wei.max_value.val < (Wei.add Wei.max_value Wei.max_value).val
  ∧ (∀ a b : Wei, (Wei.add a b).val = a.val + b.val)
  ∧ (∀ a b : Wei, a.val < b.val → Wei.sub a b = .panicked)
  ∧ (∀ a b : Ether, a.wei.val < b.wei.val → Ether.sub a b = .panicked) := by
  have hpos : 2 ≤ (2 : Nat) ^ 256 := by norm_num
  refine ⟨?_, fun a b => rfl, fun a b h => ?_, fun a b h => ?_⟩
  · show (2 : Nat) ^ 256 - 1 < 2 ^ 256 - 1 + (2 ^ 256 - 1)
    omega
  · unfold Wei.sub
    rw [if_neg (by omega)]
  · unfold Ether.sub Wei.sub
    rw [if_neg (by omega)]

/-- Witness for C9 at a concrete underflowing pair. -/
theorem add_sub_unchecked_witness :
    Wei.sub ⟨0⟩ ⟨1⟩ = .panicked ∧ Ether.sub ⟨⟨0⟩⟩ ⟨⟨1⟩⟩ = .panicked :=
  ⟨add_sub_unchecked.2.2.1 ⟨0⟩ ⟨1⟩ (by decide),
   add_sub_unchecked.2.2.2 ⟨⟨0⟩⟩ ⟨⟨1⟩⟩ (by decide)⟩

/-- Claim C1 (counterexample): the `TryFromWei<&str>` construction path for
`Amount` does not range-check: the decimal string for `2^256` (one past the
maximum) is accepted and yields a value strictly above `max_value`. -/
theorem try_from_wei_str_overflows :
    Amount.try_from_wei_str
        "115792089237316195423570985008687907853269984665640564039457584007913129639936" =
      .ok ⟨2 ^ 256⟩
  ∧ Amount.max_value.val < 2 ^ 256 := by
  refine ⟨by rfl, ?_⟩
  show (2 : Nat) ^ 256 - 1 < 2 ^ 256
  have hpos : 0 < (2 : Nat) ^ 256 := Nat.pos_pow_of_pos _ (by norm_num)
  omega

/-- Claim C1 (amended): the checked unbounded-integer conversion, the
checked decimal parse `from_wei_dec_str`, the checked hex parse, wire
deserialization, and the native unsigned conversions all keep the value
within `0 ≤ value ≤ 2^256 - 1`, failing with `Overflow` on excess input —
but the `TryFromWei<&str>` decimal-string conversion performs no range
check and can produce a value above the bound. -/
theorem construction_paths_range :
    (∀ n a, Amount.try_from_wei n = .ok a → a.val ≤ Amount.max_value.val)
  ∧ (∀ n, Amount.max_value.val < n → Amount.try_from_wei n = .error .Overflow)
  ∧ (∀ s a, Amount.from_wei_dec_str s = .ok a → a.val ≤ Amount.max_value.val)
  ∧ (∀ s n, fromStrRadix 10 s = some n → Amount.max_value.val < n →
      Amount.from_wei_dec_str s = .error .Overflow)
  ∧ (∀ s a, Amount.try_from_hex_str s = .ok a → a.val ≤ Amount.max_value.val)
  ∧ (∀ s n, fromStrRadix 16 (String.mk (Amount.stripHexMarker s.data)) = some n →
      Amount.max_value.val < n → Amount.try_from_hex_str s = .error .Overflow)
  ∧ (∀ s a, Amount.deserialize s = some a → a.val ≤ Amount.max_value.val)
  ∧ (∀ s n, fromStrRadix 10 s = some n → Amount.max_value.val < n →
      Amount.deserialize s = none)
  ∧ (∀ n, n < 2 ^ 128 → (Amount.from_wei n).val ≤ Amount.max_value.val)
  ∧ Amount.try_from_wei_str
        "115792089237316195423570985008687907853269984665640564039457584007913129639936" =
      .ok ⟨2 ^ 256⟩ := by
  have hok : ∀ n a, Amount.try_from_wei n = .ok a → a.val ≤ Amount.max_value.val := by
    intro n a h
    unfold Amount.try_from_wei at h
    by_cases hgt : Amount.max_value.val < n
    · rw [if_pos hgt] at h
      exact absurd h (by simp)
    · rw [if_neg hgt] at h
      cases h
      exact Nat.le_of_not_lt hgt
  refine ⟨hok, fun n h => ?_, fun s a h => ?_, fun s n hp h => ?_, fun s a h => ?_,
    fun s n hp h => ?_, fun s a h => ?_, fun s n hp h => ?_, fun n h => ?_, by rfl⟩
  · unfold Amount.try_from_wei
    rw [if_pos h]
  · unfold Amount.from_wei_dec_str at h
    cases hp : fromStrRadix 10 s with
    | none =>
      simp only [hp] at h
      exact absurd h (by simp)
    | some m =>
      simp only [hp] at h
      exact hok m a h
  · unfold Amount.from_wei_dec_str
    simp only [hp]
    unfold Amount.try_from_wei
    rw [if_pos h]
  · unfold Amount.try_from_hex_str at h
    cases hp : fromStrRadix 16 (String.mk (Amount.stripHexMarker s.data)) with
    | none =>
      simp only [hp] at h
      exact absurd h (by simp)
    | some m =>
      simp only [hp] at h
      exact hok m a h
  · unfold Amount.try_from_hex_str
    simp only [hp]
    unfold Amount.try_from_wei
    rw [if_pos h]
  · unfold Amount.deserialize at h
    cases hp : fromStrRadix 10 s with
    | none =>
      simp only [hp] at h
      exact absurd h (by simp)
    | some m =>
      simp only [hp] at h
      cases hq : Amount.try_from_wei m with
      | error e =>
        simp only [hq] at h
        exact absurd h (by simp)
      | ok b =>
        simp only [hq, Option.some.injEq] at h
        subst h
        exact hok m b hq
  · unfold Amount.deserialize
    simp only [hp]
    have hq : Amount.try_from_wei n = .error .Overflow := by
      unfold Amount.try_from_wei
      rw [if_pos h]
    simp only [hq]
  · show n ≤ 2 ^ 256 - 1
    have hle : (2 : Nat) ^ 128 ≤ 2 ^ 256 := Nat.pow_le_pow_right (by norm_num) (by norm_num)
    have hpos : 0 < (2 : Nat) ^ 256 := Nat.pos_pow_of_pos _ (by norm_num)
    omega

set_option maxRecDepth 100000 in
/-- Witness for the amended C1 at concrete inputs on several paths. -/
theorem construction_paths_range_witness :
    Amount.try_from_wei (2 ^ 256) = .error .Overflow
  ∧ (Amount.from_wei 1000).val ≤ Amount.max_value.val
  ∧ Amount.from_wei_dec_str
        "115792089237316195423570985008687907853269984665640564039457584007913129639936" =
      .error .Overflow
  ∧ Amount.try_from_hex_str ("0x1" ++ String.mk (List.replicate 64 '0')) =
      .error .Overflow
  ∧ Amount.deserialize
        "115792089237316195423570985008687907853269984665640564039457584007913129639936" =
      none := by
  have h1 : Amount.max_value.val < 2 ^ 256 := by
    show (2 : Nat) ^ 256 - 1 < 2 ^ 256
    have hpos : 0 < (2 : Nat) ^ 256 := Nat.pos_pow_of_pos _ (by norm_num)
    omega
  refine ⟨construction_paths_range.2.1 (2 ^ 256) h1,
    construction_paths_range.2.2.2.2.2.2.2.2.1 1000 (by norm_num), ?_, ?_, ?_⟩
  · exact construction_paths_range.2.2.2.1 _ (2 ^ 256) (by rfl) h1
  · exact construction_paths_range.2.2.2.2.2.1 _ (2 ^ 256) (by rfl) h1
  · exact construction_paths_range.2.2.2.2.2.2.2.1 _ (2 ^ 256) (by rfl) h1

/-- Claim C2: every `n` representable in 256 bits converts successfully via
the checked unbounded conversion, and round-trips through
`to_wei_dec`/`from_wei_dec_str` to an equal `Amount`. -/
theorem amount_decimal_roundtrip (n : Nat) (h : n ≤ 2 ^ 256 - 1) :
    Amount.try_from_wei n = .ok ⟨n⟩
  ∧ Amount.from_wei_dec_str (Amount.to_wei_dec ⟨n⟩) = .ok ⟨n⟩ := by
  have hok : Amount.try_from_wei n = .ok ⟨n⟩ := by
    unfold Amount.try_from_wei
    rw [if_neg (show ¬Amount.max_value.val < n from by
      show ¬(2 : Nat) ^ 256 - 1 < n
      omega)]
  refine ⟨hok, ?_⟩
  unfold Amount.from_wei_dec_str Amount.to_wei_dec
  rw [show Amount.val ⟨n⟩ = n from rfl, fromStrRadix_natToDecString]
  exact hok

/-- Witness for C2 at `n = 12345`. -/
theorem amount_decimal_roundtrip_witness :
    Amount.try_from_wei 12345 = .ok ⟨12345⟩
  ∧ Amount.from_wei_dec_str (Amount.to_wei_dec ⟨12345⟩) = .ok ⟨12345⟩ :=
  amount_decimal_roundtrip 12345 (by norm_num)

/-- Claim C4: the scaled display form divides by `10^18`, prints the whole
part alone (plus suffix) when the remainder is zero, and otherwise the
remainder padded to exactly 18 digits with trailing zeros stripped — as the
spec words it — and the three given examples display as stated. -/
theorem amount_display_correct :
    (∀ a : Amount, Amount.display a = scaledDisplaySpec a)
  ∧ Amount.display ⟨9000 * 10 ^ 18⟩ = "9000 ETH"
  ∧ Amount.display ⟨10 ^ 15⟩ = "0.001 ETH"
  ∧ Amount.display ⟨1003564412000000000⟩ = "1.003564412 ETH" :=
  ⟨fun a => rfl, by rfl, by rfl, by rfl⟩

set_option maxRecDepth 100000 in
/-- Claim C8: hex parsing strips an optional `0x`, parses the rest in base
16, fails with `Parse` on malformed digits and with `Overflow` above
`2^256 - 1`, and otherwise returns the parsed value. -/
theorem try_from_hex_contract :
    (∀ s : String, Amount.try_from_hex_str s =
        match fromStrRadix 16 (String.mk (Amount.stripHexMarker s.data)) with
        | none => .error .Parse
        | some n =>
          if Amount.max_value.val < n then .error .Overflow else .ok ⟨n⟩)
  ∧ (∀ cs : List Char, Amount.stripHexMarker ('0' :: 'x' :: cs) = cs)
  ∧ Amount.try_from_hex_str "0x2a" = .ok ⟨42⟩
  ∧ Amount.try_from_hex_str "2a" = .ok ⟨42⟩
  ∧ Amount.try_from_hex_str "0xzz" = .error .Parse
  ∧ Amount.try_from_hex_str "" = .error .Parse
  ∧ Amount.try_from_hex_str ("0x1" ++ String.mk (List.replicate 64 '0')) =
      .error .Overflow := by
  refine ⟨fun s => ?_, fun cs => by simp [Amount.stripHexMarker], by rfl, by rfl, by rfl,
    by rfl, by rfl⟩
  unfold Amount.try_from_hex_str
  cases fromStrRadix 16 (String.mk (Amount.stripHexMarker s.data)) with
  | none => rfl
  | some n => rfl

/-- Claim C5: decoding a response body with a `result` tag yields the typed
success value, an `error` tag yields the node's code and message verbatim
as a protocol failure, and a body with neither tag (such as `{}`) fails to
decode. -/
theorem envelope_decode_contract :
    decodeResponse String Json.asString (Json.jobj [("result", Json.jstr "0x2a")]) =
        some (.result "0x2a")
  ∧ decodeResponse String Json.asString
        (Json.jobj [("error",
          Json.jobj [("code", Json.jnum (-32000)), ("message", Json.jstr "boom")])]) =
        some (.error ⟨-32000, "boom"⟩)
  ∧ decodeResponse String Json.asString (Json.jobj []) = none
  ∧ (∀ v : Json, decodeResponse String Json.asString (Json.jobj [("result", v)]) =
        (Json.asString v).map ResponsePayload.result)
  ∧ (∀ (c : Int) (m : String),
        decodeResponse String Json.asString
          (Json.jobj [("error",
            Json.jobj [("code", Json.jnum c), ("message", Json.jstr m)])]) =
          some (.error ⟨c, m⟩))
  ∧ (∀ s : String, (ResponsePayload.result s : ResponsePayload String).into_result = .ok s)
  ∧ (∀ e : JsonRpcError,
        (ResponsePayload.error e : ResponsePayload String).into_result = .error e) :=
  ⟨by rfl, by rfl, by rfl, fun v => by rfl, fun c m => by rfl, fun s => rfl, fun e => rfl⟩

/-- Claim C6: a request built by `Request::v2` carries the constant id
`"1"`, version `"2.0"`, the given method and params, and serializes with
the fields in exactly the order `id`, `jsonrpc`, `method`, `params`. -/
theorem request_v2_canonical :
    (∀ (method : String) (params : Json),
        (Request.v2 method params).toJson =
          Json.jobj [("id", Json.jstr "1"), ("jsonrpc", Json.jstr "2.0"),
                    ("method", Json.jstr method), ("params", params)])
  ∧ (∀ (method : String) (params : Json), (Request.v2 method params).id = "1")
  ∧ (∀ (method : String) (params : Json),
        (Request.v2 method params).jsonrpc = JSONRPC_VERSION_2)
  ∧ Json.render ((Request.v2 "eth_blockNumber" (Json.jarr [Json.jstr "latest"])).toJson) =
      "\x7b\"id\":\"1\",\"jsonrpc\":\"2.0\",\"method\":\"eth_blockNumber\",\"params\":[\"latest\"]\x7d" :=
  ⟨fun _ _ => rfl, fun _ _ => rfl, fun _ _ => rfl, by rfl⟩
